import Mathlib

/-!
Shallow embedding of the polyglot benchmark orchestrator's statistical
compiler (`src/orchestrator/results.py`) and language runners
(`src/orchestrator/runners.py`).

Numeric modelling: Python floats are modelled by exact rationals (`ℚ`);
Python ints by `ℤ`/`ℕ`.  The two transcendental library calls the code
makes, `math.sqrt` and `math.erf`, are modelled as an abstract pair of
functions (`MathModel`), so every definition stays computable; theorems
that depend on a property of those functions (e.g. `erf 0 = 0`) state it
as an explicit hypothesis.  Python dictionaries (which preserve insertion
order) are modelled as association lists; `set()` iteration order, which
is only used to deduplicate language names, is modelled as first-seen
order (`dedup`).  Python exceptions raised past a function's boundary are
modelled with `Except`; functions that catch every exception internally
are modelled as the total function computing their non-raising result.
-/

/-- Model of the opaque `math` library calls used by the compiler. -/
structure MathModel where
  sqrt : ℚ → ℚ
  erf : ℚ → ℚ

/-- Python's built-in `min` on a non-empty list (callers guard emptiness;
the `[]` case is an arbitrary default, never reached under the guards). -/
def py_min : List ℚ → ℚ
  | [] => 0
  | x :: xs => xs.foldl min x

/-- Python's built-in `max` on a non-empty list. -/
def py_max : List ℚ → ℚ
  | [] => 0
  | x :: xs => xs.foldl max x

/-- Python's built-in `min` over `ℤ` values (used for memory metrics). -/
def py_min_int : List ℤ → ℤ
  | [] => 0
  | x :: xs => xs.foldl min x

/-- Python's built-in `max` over `ℤ` values. -/
def py_max_int : List ℤ → ℤ
  | [] => 0
  | x :: xs => xs.foldl max x

/-- Model of `statistics.mean`: sum divided by length (callers guard emptiness). -/
def statistics_mean (xs : List ℚ) : ℚ := xs.sum / xs.length

/-- Model of `statistics.median`: middle element of the sorted list, or the average
of the two middle elements for even length (callers guard emptiness). -/
def statistics_median (xs : List ℚ) : ℚ :=
  let s := List.insertionSort (fun a b => a ≤ b) xs
  let n := s.length
  if n % 2 = 1 then s.getD (n / 2) 0
  else (s.getD (n / 2 - 1) 0 + s.getD (n / 2) 0) / 2

/-- Model of `statistics.variance`: sample variance with Bessel's correction
(callers guard `length ≥ 2`). -/
def statistics_variance (xs : List ℚ) : ℚ :=
  let m := statistics_mean xs
  (xs.map (fun x => (x - m) ^ 2)).sum / ((xs.length : ℚ) - 1)

/-- Model of `statistics.stdev`: square root of the sample variance, through the
abstract `math` model. -/
def statistics_stdev (m : MathModel) (xs : List ℚ) : ℚ :=
  m.sqrt (statistics_variance xs)

/-- One executed iteration (`TestResult` in both `runners.py` and
`results.py`); the wall-clock timestamp field is irrelevant to every
claim and omitted. -/
structure TestResult where
  execution_time : ℚ
  memory_usage : ℤ
  cpu_usage : ℚ
  output : String
  error : String
  success : Bool
  language : String
  test_name : String
  iteration : ℕ
deriving Repr, DecidableEq

/-- Aggregated per-(test, language) metrics (`LanguagePerformance`). -/
structure LanguagePerformance where
  language : String
  test_name : String
  avg_time : ℚ
  min_time : ℚ
  max_time : ℚ
  std_time : ℚ
  median_time : ℚ
  avg_memory : ℚ
  peak_memory : ℤ
  min_memory : ℤ
  avg_cpu : ℚ
  max_cpu : ℚ
  success_rate : ℚ
  total_iterations : ℕ
  successful_iterations : ℕ
  performance_score : ℚ
  reliability_score : ℚ
deriving Repr, DecidableEq

/-- Per-test analysis across languages (`TestAnalysis`). -/
structure TestAnalysis where
  test_name : String
  language_performances : List (String × LanguagePerformance)
  fastest_language : String
  most_memory_efficient : String
  most_reliable : String
  performance_ranking : List (String × ℚ)
  statistical_significance : List (String × List (String × ℚ))
deriving Repr, DecidableEq

/-- Cross-test rankings (`OverallRankings`). -/
structure OverallRankings where
  by_speed : List (String × ℚ)
  by_memory : List (String × ℚ)
  by_reliability : List (String × ℚ)
  by_overall : List (String × ℚ)
  category_winners : List (String × String)
deriving Repr, DecidableEq

/-- Summary statistics dictionary built by `_generate_summary_statistics`. -/
structure SummaryStatistics where
  total_successful_executions : ℕ
  total_failed_executions : ℕ
  overall_success_rate : ℚ
  tests_analyzed : ℕ
  languages_tested : ℕ
deriving Repr, DecidableEq

/-- Complete benchmark summary (`PerformanceSummary`); the `datetime.now()`
timestamp is modelled as an abstract clock reading supplied by the caller. -/
structure PerformanceSummary where
  benchmark_id : String
  timestamp : ℕ
  total_tests : ℕ
  total_languages : ℕ
  total_executions : ℕ
  results : List (String × TestAnalysis)
  overall_rankings : OverallRankings
  execution_time : ℚ
  summary_statistics : SummaryStatistics
deriving Repr, DecidableEq

/-- The compiler's only instance state: `self.performance_weights`
(set in `__init__`, read-only afterwards). -/
structure CompilerState where
  weight_time : ℚ
  weight_memory : ℚ
  weight_reliability : ℚ
deriving Repr, DecidableEq

/-- The weights `{'time': 0.7, 'memory': 0.2, 'reliability': 0.1}`. -/
def initial_compiler_state : CompilerState :=
  ⟨7 / 10, 2 / 10, 1 / 10⟩

/-- Model of `ResultsCompiler._calculate_performance_score`. -/
def calculate_performance_score (st : CompilerState)
    (avg_time avg_memory success_rate : ℚ) : ℚ :=
  if avg_time ≤ 0 then 0
  else
    let time_score := 1000 / (avg_time * 1000)
    let memory_score := 100 / max (avg_memory / 1024 / 1024) 1
    time_score * st.weight_time + memory_score * st.weight_memory +
      success_rate * 100 * st.weight_reliability

/-- Model of `ResultsCompiler._calculate_reliability_score`. -/
def calculate_reliability_score (success_rate std_time : ℚ) : ℚ :=
  let consistency_score := 1 / (1 + std_time)
  success_rate * (8 / 10) + consistency_score * (2 / 10)

/-- Model of `ResultsCompiler._calculate_language_performance`. -/
def calculate_language_performance (m : MathModel) (st : CompilerState)
    (language test_name : String) (results : List TestResult) :
    LanguagePerformance :=
  if results = [] then
    { language := language, test_name := test_name
      avg_time := 0, min_time := 0, max_time := 0, std_time := 0
      median_time := 0, avg_memory := 0, peak_memory := 0, min_memory := 0
      avg_cpu := 0, max_cpu := 0, success_rate := 0
      total_iterations := 0, successful_iterations := 0
      performance_score := 0, reliability_score := 0 }
  else
    let successful_results := results.filter (fun r => r.success)
    let total_iterations := results.length
    let successful_iterations := successful_results.length
    let times := successful_results.map (fun r => r.execution_time)
    let avg_time := if successful_results ≠ [] then statistics_mean times else 0
    let min_time := if successful_results ≠ [] then py_min times else 0
    let max_time := if successful_results ≠ [] then py_max times else 0
    let std_time :=
      if successful_results ≠ [] then
        if 1 < times.length then statistics_stdev m times else 0
      else 0
    let median_time := if successful_results ≠ [] then statistics_median times else 0
    let memories : List ℤ :=
      (successful_results.filter (fun r => 0 < r.memory_usage)).map
        (fun r => r.memory_usage)
    let avg_memory :=
      if successful_results ≠ [] ∧ memories ≠ [] then
        statistics_mean (memories.map (fun z => (z : ℚ)))
      else 0
    let peak_memory :=
      if successful_results ≠ [] ∧ memories ≠ [] then py_max_int memories else 0
    let min_memory :=
      if successful_results ≠ [] ∧ memories ≠ [] then py_min_int memories else 0
    let cpu_usages :=
      (successful_results.filter (fun r => 0 < r.cpu_usage)).map
        (fun r => r.cpu_usage)
    let avg_cpu :=
      if successful_results ≠ [] ∧ cpu_usages ≠ [] then statistics_mean cpu_usages
      else 0
    let max_cpu :=
      if successful_results ≠ [] ∧ cpu_usages ≠ [] then py_max cpu_usages else 0
    let success_rate :=
      if 0 < total_iterations then
        (successful_iterations : ℚ) / (total_iterations : ℚ)
      else 0
    let performance_score :=
      calculate_performance_score st avg_time avg_memory success_rate
    let reliability_score := calculate_reliability_score success_rate std_time
    { language := language, test_name := test_name
      avg_time := avg_time, min_time := min_time, max_time := max_time
      std_time := std_time, median_time := median_time
      avg_memory := avg_memory, peak_memory := peak_memory
      min_memory := min_memory, avg_cpu := avg_cpu, max_cpu := max_cpu
      success_rate := success_rate, total_iterations := total_iterations
      successful_iterations := successful_iterations
      performance_score := performance_score
      reliability_score := reliability_score }

/-- Python's `min(items, key=...)`: the first element whose key is minimal
(`<` on `WithTop ℚ` models `float('inf')` sentinels). -/
def py_min_by {α : Type} (key : α → WithTop ℚ) : List α → Option α
  | [] => none
  | x :: xs => some (xs.foldl (fun b a => if key a < key b then a else b) x)

/-- Python's `max(items, key=...)`: the first element whose key is maximal. -/
def py_max_by {α : Type} (key : α → ℚ) : List α → Option α
  | [] => none
  | x :: xs => some (xs.foldl (fun b a => if key b < key a then a else b) x)

/-- Key used by `_find_fastest_language`: `avg_time` when the language has
a success, otherwise `float('inf')`. -/
def fastest_key (p : LanguagePerformance) : WithTop ℚ :=
  if 0 < p.successful_iterations then (p.avg_time : WithTop ℚ) else ⊤

/-- Model of `ResultsCompiler._find_fastest_language`. -/
def find_fastest_language
    (language_performances : List (String × LanguagePerformance)) : String :=
  match py_min_by (fun p => fastest_key p.2) language_performances with
  | none => ""
  | some fastest =>
      if 0 < fastest.2.successful_iterations then fastest.1 else ""

/-- Key used by `_find_most_memory_efficient`. -/
def memory_key (p : LanguagePerformance) : WithTop ℚ :=
  if 0 < p.successful_iterations then (p.avg_memory : WithTop ℚ) else ⊤

/-- Model of `ResultsCompiler._find_most_memory_efficient`. -/
def find_most_memory_efficient
    (language_performances : List (String × LanguagePerformance)) : String :=
  match py_min_by (fun p => memory_key p.2) language_performances with
  | none => ""
  | some most_efficient =>
      if 0 < most_efficient.2.successful_iterations then most_efficient.1 else ""

/-- Model of `ResultsCompiler._find_most_reliable`: highest success rate over all
languages, zero-success ones included. -/
def find_most_reliable
    (language_performances : List (String × LanguagePerformance)) : String :=
  match py_max_by (fun p => p.2.success_rate) language_performances with
  | none => ""
  | some most_reliable => most_reliable.1

/-- Python's stable `sorted(..., key=score, reverse=True)` on
(name, score) pairs. -/
def sort_by_score_desc (l : List (String × ℚ)) : List (String × ℚ) :=
  List.insertionSort (fun a b => b.2 ≤ a.2) l

/-- Model of `ResultsCompiler._rank_languages_by_performance`. -/
def rank_languages_by_performance
    (language_performances : List (String × LanguagePerformance)) :
    List (String × ℚ) :=
  sort_by_score_desc
    ((language_performances.filter
        (fun p => 0 < p.2.successful_iterations)).map
      (fun p => (p.1, p.2.performance_score)))

/-- Clamp into `[0, 1]` as `max(0.0, min(1.0, x))`. -/
def clamp01 (x : ℚ) : ℚ := max 0 (min 1 x)

/-- The normal-approximation branch of `_approximate_t_cdf`
(`0.5 * (1 + erf(t / sqrt(2)))`). -/
def normal_approx_cdf (m : MathModel) (t : ℚ) : ℚ :=
  (1 / 2) * (1 + m.erf (t / m.sqrt 2))

/-- The coarse closed-form branch of `_approximate_t_cdf`
(`max(0, min(1, 0.5 + t / (2 * sqrt(df + t*t))))`). -/
def coarse_approx_cdf (m : MathModel) (t : ℚ) (df : ℤ) : ℚ :=
  clamp01 (1 / 2 + t / (2 * m.sqrt ((df : ℚ) + t * t)))

/-- Model of `ResultsCompiler._approximate_t_cdf`. -/
def approximate_t_cdf (m : MathModel) (t : ℚ) (df : ℤ) : ℚ :=
  if 30 ≤ df then normal_approx_cdf m t else coarse_approx_cdf m t df

/-- The degrees of freedom `min(n1, n2) - 1` used by
`_calculate_t_test_p_value`. -/
def t_test_df (n1 n2 : ℕ) : ℤ := (min n1 n2 : ℤ) - 1

/-- The pooled standard error `sqrt(var1/n1 + var2/n2)`. -/
def pooled_standard_error (m : MathModel) (sample1 sample2 : List ℚ) : ℚ :=
  m.sqrt (statistics_variance sample1 / sample1.length +
    statistics_variance sample2 / sample2.length)

/-- The Welch-style t-statistic `abs(mean1 - mean2) / pooled_se`, taken
as `0` when the pooled standard error is not positive. -/
def welch_t_statistic (m : MathModel) (sample1 sample2 : List ℚ) : ℚ :=
  let pooled_se := pooled_standard_error m sample1 sample2
  if 0 < pooled_se then
    |statistics_mean sample1 - statistics_mean sample2| / pooled_se
  else 0

/-- Model of `ResultsCompiler._calculate_t_test_p_value`.  The Python body is
wrapped in `try/except Exception: return 1.0`; in exact arithmetic every
operation is total (Lean's `x / 0 = 0` convention), so the `except` arm
is unreachable and the model is the non-raising computation. -/
def calculate_t_test_p_value (m : MathModel) (sample1 sample2 : List ℚ) : ℚ :=
  if sample1.length < 2 ∨ sample2.length < 2 then 1
  else
    let t_stat := welch_t_statistic m sample1 sample2
    let p_value :=
      2 * (1 - approximate_t_cdf m t_stat (t_test_df sample1.length sample2.length))
    clamp01 p_value

/-- The successful execution times of one language's results
(the list comprehension filtering on `r.success`). -/
def successful_times (results : List TestResult) : List ℚ :=
  (results.filter (fun r => r.success)).map (fun r => r.execution_time)

/-- One entry of the significance matrix: the approximate p-value when
both languages have at least two successful samples, else `1.0`. -/
def significance_entry (m : MathModel) (results1 results2 : List TestResult) : ℚ :=
  if 1 < (successful_times results1).length ∧
      1 < (successful_times results2).length then
    calculate_t_test_p_value m (successful_times results1) (successful_times results2)
  else 1

/-- Model of `ResultsCompiler._calculate_statistical_significance`: for every pair
of distinct language positions `i ≠ j`, row `i` holds the entry comparing
language `i` against language `j`. -/
def calculate_statistical_significance (m : MathModel)
    (language_results : List (String × List TestResult)) :
    List (String × List (String × ℚ)) :=
  language_results.enum.map (fun ip =>
    (ip.2.1,
      language_results.enum.filterMap (fun jq =>
        if ip.1 = jq.1 then none
        else some (jq.2.1, significance_entry m ip.2.2 jq.2.2))))

/-- Model of `ResultsCompiler._analyze_test_results`. -/
def analyze_test_results (m : MathModel) (st : CompilerState)
    (test_name : String) (language_results : List (String × List TestResult)) :
    TestAnalysis :=
  let language_performances :=
    language_results.filterMap (fun p =>
      if p.2 = [] then none
      else some (p.1, calculate_language_performance m st p.1 test_name p.2))
  { test_name := test_name
    language_performances := language_performances
    fastest_language := find_fastest_language language_performances
    most_memory_efficient := find_most_memory_efficient language_performances
    most_reliable := find_most_reliable language_performances
    performance_ranking := rank_languages_by_performance language_performances
    statistical_significance := calculate_statistical_significance m language_results }

/-- The per-test speed score used by `_calculate_overall_rankings`
(`1000 / (avg_time * 1000)` when `avg_time > 0`, else `0`). -/
def overall_speed_score (perf : LanguagePerformance) : ℚ :=
  if 0 < perf.avg_time then 1000 / (perf.avg_time * 1000) else 0

/-- The per-test memory score used by `_calculate_overall_rankings`. -/
def overall_memory_score (perf : LanguagePerformance) : ℚ :=
  100 / max (perf.avg_memory / 1024 / 1024) 1

/-- Per-language scores collected across all test analyses; only tests
where the language appears with at least one success contribute. -/
def collect_scores (test_analyses : List (String × TestAnalysis))
    (lang : String) (score : LanguagePerformance → ℚ) : List ℚ :=
  test_analyses.filterMap (fun p =>
    match p.2.language_performances.lookup lang with
    | none => none
    | some perf =>
        if 0 < perf.successful_iterations then some (score perf) else none)

/-- Model of `ResultsCompiler._create_ranking`: average each language's non-empty
score list and sort descending (stably). -/
def create_ranking (scores_by_language : List (String × List ℚ)) :
    List (String × ℚ) :=
  sort_by_score_desc
    (scores_by_language.filterMap (fun p =>
      if p.2 = [] then none else some (p.1, statistics_mean p.2)))

/-- Model of `ResultsCompiler._calculate_overall_rankings`.  CPython's `set`
iteration order over the language names is modelled as first-seen order. -/
def calculate_overall_rankings
    (test_analyses : List (String × TestAnalysis)) : OverallRankings :=
  let all_languages :=
    (test_analyses.flatMap (fun p =>
      p.2.language_performances.map (fun q => q.1))).dedup
  { by_speed :=
      create_ranking (all_languages.map (fun lang =>
        (lang, collect_scores test_analyses lang overall_speed_score)))
    by_memory :=
      create_ranking (all_languages.map (fun lang =>
        (lang, collect_scores test_analyses lang overall_memory_score)))
    by_reliability :=
      create_ranking (all_languages.map (fun lang =>
        (lang, collect_scores test_analyses lang
          (fun perf => perf.reliability_score * 100))))
    by_overall :=
      create_ranking (all_languages.map (fun lang =>
        (lang, collect_scores test_analyses lang
          (fun perf => perf.performance_score))))
    category_winners :=
      test_analyses.filterMap (fun p =>
        match p.2.performance_ranking with
        | [] => none
        | x :: _ => some (p.1, x.1)) }

/-- Model of `ResultsCompiler._get_all_languages` (unique inner keys; only the
count of this list is consumed). -/
def get_all_languages
    (raw_results : List (String × List (String × List TestResult))) :
    List String :=
  (raw_results.flatMap (fun p => p.2.map (fun q => q.1))).dedup

/-- Model of `ResultsCompiler._generate_summary_statistics`. -/
def generate_summary_statistics
    (test_analyses : List (String × TestAnalysis))
    (raw_results : List (String × List (String × List TestResult))) :
    SummaryStatistics :=
  let all_results := raw_results.flatMap (fun p => p.2.flatMap (fun q => q.2))
  let total_successful := all_results.countP (fun r => r.success)
  let total_failed := all_results.countP (fun r => !r.success)
  let overall_success_rate :=
    if 0 < total_successful + total_failed then
      (total_successful : ℚ) / ((total_successful : ℚ) + (total_failed : ℚ))
    else 0
  { total_successful_executions := total_successful
    total_failed_executions := total_failed
    overall_success_rate := overall_success_rate
    tests_analyzed := test_analyses.length
    languages_tested := (get_all_languages raw_results).length }

/-- Model of `ResultsCompiler.compile_results`.  Raising `ValueError` is modelled
as `Except.error` carrying the exception message; the `datetime.now()`
call is modelled by the `clock` argument.  The compiler instance state is
threaded explicitly and returned, making any hidden mutation visible. -/
def compile_results (m : MathModel) (st : CompilerState)
    (raw_results : List (String × List (String × List TestResult)))
    (benchmark_id : String) (execution_time : ℚ) (clock : ℕ) :
    Except String PerformanceSummary × CompilerState :=
  if raw_results = [] then (Except.error "No raw results provided", st)
  else
    let test_analyses := raw_results.map (fun p =>
      (p.1, analyze_test_results m st p.1 p.2))
    let total_executions :=
      (raw_results.map (fun p => (p.2.map (fun q => q.2.length)).sum)).sum
    let overall_rankings := calculate_overall_rankings test_analyses
    let summary_stats := generate_summary_statistics test_analyses raw_results
    (Except.ok
      { benchmark_id := benchmark_id
        timestamp := clock
        total_tests := test_analyses.length
        total_languages := (get_all_languages raw_results).length
        total_executions := total_executions
        results := test_analyses
        overall_rankings := overall_rankings
        execution_time := execution_time
        summary_statistics := summary_stats }, st)

/-- How the supervised subprocess call resolved, as seen by
`execute_test`'s `try` block: a completed process (with captured streams,
exit code and elapsed wall-clock time), a `subprocess.TimeoutExpired`, or
any other exception (spawn failure etc.) with its message. -/
inductive ProcOutcome where
  | completed (stdout stderr : String) (returncode : ℤ) (elapsed : ℚ)
  | timedOut
  | raised (msg : String)
deriving Repr, DecidableEq

/-- Model of `PythonRunner.execute_test`: total over every outcome of the
subprocess call — nothing escapes the `try/except` boundary. -/
def python_execute_test (timeout : ℚ) (language test_name : String)
    (iteration : ℕ) (outcome : ProcOutcome) : TestResult :=
  match outcome with
  | ProcOutcome.completed stdout stderr returncode elapsed =>
      { execution_time := elapsed
        memory_usage := (stdout.utf8ByteSize : ℤ) + (stderr.utf8ByteSize : ℤ)
        cpu_usage := 0
        output := stdout
        error := stderr
        success := returncode = 0
        language := language
        test_name := test_name
        iteration := iteration }
  | ProcOutcome.timedOut =>
      { execution_time := timeout
        memory_usage := 0
        cpu_usage := 0
        output := ""
        error := "Timeout after " ++ toString timeout ++ "s"
        success := false
        language := language
        test_name := test_name
        iteration := iteration }
  | ProcOutcome.raised msg =>
      { execution_time := 0
        memory_usage := 0
        cpu_usage := 0
        output := ""
        error := msg
        success := false
        language := language
        test_name := test_name
        iteration := iteration }

/-- Model of `RustRunner.execute_test`: up-front existence/executability checks,
then the same total `try/except` structure; the binary's on-disk size is
used as the memory metric. -/
def rust_execute_test (timeout : ℚ) (language test_name : String)
    (iteration : ℕ) (executable_file : String)
    (file_exists executable_ok : Bool) (binary_size : ℤ)
    (outcome : ProcOutcome) : TestResult :=
  if !file_exists then
    { execution_time := 0, memory_usage := 0, cpu_usage := 0
      output := ""
      error := "Executable not found: " ++ executable_file
      success := false
      language := language, test_name := test_name, iteration := iteration }
  else if !executable_ok then
    { execution_time := 0, memory_usage := 0, cpu_usage := 0
      output := ""
      error := "Binary not executable: " ++ executable_file
      success := false
      language := language, test_name := test_name, iteration := iteration }
  else
    match outcome with
    | ProcOutcome.completed stdout stderr returncode elapsed =>
        { execution_time := elapsed
          memory_usage := binary_size
          cpu_usage := 0
          output := stdout
          error := stderr
          success := returncode = 0
          language := language
          test_name := test_name
          iteration := iteration }
    | ProcOutcome.timedOut =>
        { execution_time := timeout
          memory_usage := 0
          cpu_usage := 0
          output := ""
          error := "Timeout after " ++ toString timeout ++ "s"
          success := false
          language := language
          test_name := test_name
          iteration := iteration }
    | ProcOutcome.raised msg =>
        { execution_time := 0
          memory_usage := 0
          cpu_usage := 0
          output := ""
          error := "Execution error: " ++ msg
          success := false
          language := language
          test_name := test_name
          iteration := iteration }

/-- Substring occurrence on character lists (Python's `in` on `str`). -/
def char_list_has_sub : List Char → List Char → Bool
  | [], pat => pat.isEmpty
  | c :: rest, pat => pat.isPrefixOf (c :: rest) || char_list_has_sub rest pat

/-- Python's `pat in s` substring test. -/
def str_contains (s pat : String) : Bool := char_list_has_sub s.data pat.data

/-- The dependency declaration emitted for the `rand` crate. -/
def rand_dep : String := "rand = \"0.8\""

/-- The nine recognized (pattern, declaration) pairs of
`RustRunner._analyze_rust_dependencies`, in source order. -/
def recognized_rust_deps : List (String × String) :=
  [("rand::", rand_dep),
   ("serde::", "serde = \x7b version = \"1.0\", features = [\"derive\"] \x7d"),
   ("serde_json::", "serde_json = \"1.0\""),
   ("regex::", "regex = \"1.0\""),
   ("reqwest::",
     "reqwest = \x7b version = \"0.11\", features = [\"blocking\", \"json\"] \x7d"),
   ("clap::", "clap = \x7b version = \"4.0\", features = [\"derive\"] \x7d"),
   ("flate2::", "flate2 = \"1.0\""),
   ("tokio::", "tokio = \x7b version = \"1.0\", features = [\"full\"] \x7d"),
   ("tempfile::", "tempfile = \"3.0\"")]

/-- Model of `RustRunner._analyze_rust_dependencies`: best-effort scan of the
source text; `none` models an unreadable source file, handled by the
`except` arm that returns the (empty) partial list — never fatal.  Each
source condition `'use X::' in content or 'X::' in content` is equivalent
to the second disjunct, which is what the pattern table records. -/
def analyze_rust_dependencies (source : Option String) : List String :=
  match source with
  | none => []
  | some content =>
      recognized_rust_deps.filterMap (fun p =>
        if str_contains content ("use " ++ p.1) || str_contains content p.1 then
          some p.2
        else none)

/-- The fixed part of `Cargo.toml` written before the dependency lines. -/
def cargo_header : String :=
  "[package]\nname = \"benchmark_test\"\nversion = \"0.1.0\"\nedition = \"2021\"\n\n[dependencies]\n"

/-- The release-profile block appended after the dependency lines. -/
def cargo_profile : String :=
  "\n[profile.release]\nopt-level = 3\nlto = true\ncodegen-units = 1\npanic = \"abort\"\ndebug = false\n"

/-- The `Cargo.toml` text assembled by `RustRunner._create_cargo_project`:
header, one line per inferred dependency, optimization profile. -/
def cargo_toml_content (dependencies : List String) : String :=
  (dependencies.foldl (fun acc dep => acc ++ dep ++ "\n") cargo_header) ++
    cargo_profile

theorem foldl_min_le_start (l : List ℚ) (a : ℚ) : l.foldl min a ≤ a := by
  induction l generalizing a with
  | nil => simp
  | cons x xs ih => exact le_trans (ih (min a x)) (min_le_left a x)

theorem foldl_min_le_mem (l : List ℚ) (a b : ℚ) (hb : b ∈ l) :
    l.foldl min a ≤ b := by
  induction l generalizing a with
  | nil => cases hb
  | cons x xs ih =>
    rcases List.mem_cons.mp hb with h | h
    · subst h
      exact le_trans (foldl_min_le_start xs (min a b)) (min_le_right a b)
    · exact ih _ h

theorem py_min_le_mem {l : List ℚ} {b : ℚ} (hb : b ∈ l) : py_min l ≤ b := by
  cases l with
  | nil => cases hb
  | cons x xs =>
    rcases List.mem_cons.mp hb with h | h
    · subst h; exact foldl_min_le_start xs b
    · exact foldl_min_le_mem xs x b h

theorem foldl_max_le_start (l : List ℚ) (a : ℚ) : a ≤ l.foldl max a := by
  induction l generalizing a with
  | nil => simp
  | cons x xs ih => exact le_trans (le_max_left a x) (ih (max a x))

theorem foldl_max_le_mem (l : List ℚ) (a b : ℚ) (hb : b ∈ l) :
    b ≤ l.foldl max a := by
  induction l generalizing a with
  | nil => cases hb
  | cons x xs ih =>
    rcases List.mem_cons.mp hb with h | h
    · subst h
      exact le_trans (le_max_right a b) (foldl_max_le_start xs (max a b))
    · exact ih _ h

theorem le_py_max_mem {l : List ℚ} {b : ℚ} (hb : b ∈ l) : b ≤ py_max l := by
  cases l with
  | nil => cases hb
  | cons x xs =>
    rcases List.mem_cons.mp hb with h | h
    · subst h; exact foldl_max_le_start xs b
    · exact foldl_max_le_mem xs x b h

theorem statistics_mean_le (xs : List ℚ) (M : ℚ) (hne : xs ≠ [])
    (h : ∀ x ∈ xs, x ≤ M) : statistics_mean xs ≤ M := by
  have hlen : 0 < (xs.length : ℚ) := by
    have := List.length_pos.mpr hne
    exact_mod_cast this
  have hsum : xs.sum ≤ (xs.length : ℚ) * M := by
    have := List.sum_le_card_nsmul xs M h
    simpa [nsmul_eq_mul] using this
  rw [statistics_mean, div_le_iff₀ hlen]
  linarith

theorem le_statistics_mean (xs : List ℚ) (M : ℚ) (hne : xs ≠ [])
    (h : ∀ x ∈ xs, M ≤ x) : M ≤ statistics_mean xs := by
  have hlen : 0 < (xs.length : ℚ) := by
    have := List.length_pos.mpr hne
    exact_mod_cast this
  have hsum : (xs.length : ℚ) * M ≤ xs.sum := by
    have := List.card_nsmul_le_sum xs M h
    simpa [nsmul_eq_mul] using this
  rw [statistics_mean, le_div_iff₀ hlen]
  linarith

theorem statistics_median_bounds (xs : List ℚ) (hne : xs ≠ []) :
    py_min xs ≤ statistics_median xs ∧ statistics_median xs ≤ py_max xs := by
  have hperm := List.perm_insertionSort (fun a b : ℚ => a ≤ b) xs
  set s := List.insertionSort (fun a b : ℚ => a ≤ b) xs with hs
  have hlen : s.length = xs.length := hperm.length_eq
  have hpos : 0 < s.length := by
    rw [hlen]; exact List.length_pos.mpr hne
  have hmem : ∀ i (h : i < s.length), s.getD i 0 ∈ xs := by
    intro i h
    rw [List.getD_eq_getElem s 0 h]
    exact hperm.mem_iff.mp (List.getElem_mem h)
  have h2 : s.length / 2 < s.length := Nat.div_lt_self hpos (by norm_num)
  rw [statistics_median]
  simp only [← hs]
  split
  · constructor
    · exact py_min_le_mem (hmem _ h2)
    · exact le_py_max_mem (hmem _ h2)
  · have h1 : s.length / 2 - 1 < s.length := lt_of_le_of_lt (Nat.sub_le _ _) h2
    have ha := hmem _ h1
    have hb := hmem _ h2
    have hmina := py_min_le_mem ha
    have hminb := py_min_le_mem hb
    have hmaxa := le_py_max_mem ha
    have hmaxb := le_py_max_mem hb
    constructor
    · linarith
    · linarith

/-- C6: for every non-empty set of successful samples aggregated into a
VariantPerformance, the computed duration statistics satisfy
min_time ≤ median_time ≤ max_time and min_time ≤ mean_time ≤ max_time. -/
theorem duration_statistics_ordered (m : MathModel) (st : CompilerState)
    (language test_name : String) (results : List TestResult)
    (hsucc : results.filter (fun r => r.success) ≠ []) :
    (calculate_language_performance m st language test_name results).min_time ≤
      (calculate_language_performance m st language test_name results).median_time ∧
    (calculate_language_performance m st language test_name results).median_time ≤
      (calculate_language_performance m st language test_name results).max_time ∧
    (calculate_language_performance m st language test_name results).min_time ≤
      (calculate_language_performance m st language test_name results).avg_time ∧
    (calculate_language_performance m st language test_name results).avg_time ≤
      (calculate_language_performance m st language test_name results).max_time := by
  have hne : results ≠ [] := by
    intro h; rw [h] at hsucc; simp at hsucc
  have htimes : (results.filter (fun r => r.success)).map
      (fun r => r.execution_time) ≠ [] := by
    simpa using hsucc
  rw [calculate_language_performance, if_neg hne]
  simp only [if_pos hsucc, ne_eq]
  set times := (results.filter (fun r => r.success)).map
    (fun r => r.execution_time) with ht
  have hmed := statistics_median_bounds times htimes
  have hminmean : py_min times ≤ statistics_mean times := by
    apply le_statistics_mean times _ htimes
    intro x hx; exact py_min_le_mem hx
  have hmaxmean : statistics_mean times ≤ py_max times := by
    apply statistics_mean_le times _ htimes
    intro x hx; exact le_py_max_mem hx
  exact ⟨hmed.1, hmed.2, hminmean, hmaxmean⟩

/-- C7: for every sample list aggregated into a VariantPerformance,
total_iterations equals the count of samples including failures,
successful_iterations is at most total_iterations, and successful plus
failed iterations equals total_iterations. -/
theorem iteration_count_invariants (m : MathModel) (st : CompilerState)
    (language test_name : String) (results : List TestResult) :
    (calculate_language_performance m st language test_name results).total_iterations
        = results.length ∧
    (calculate_language_performance m st language test_name results).successful_iterations
        ≤ (calculate_language_performance m st language test_name results).total_iterations ∧
    (calculate_language_performance m st language test_name results).successful_iterations
        + results.countP (fun r => !r.success)
        = (calculate_language_performance m st language test_name results).total_iterations := by
  rw [calculate_language_performance]
  split
  · rename_i h
    subst h
    simp
  · refine ⟨rfl, List.length_filter_le _ _, ?_⟩
    show (results.filter (fun r => r.success)).length
        + results.countP (fun r => !r.success) = results.length
    rw [← List.countP_eq_length_filter]
    have hfe : (fun r : TestResult => !r.success)
        = (fun r : TestResult => decide ¬r.success = true) := by
      funext r; cases r.success <;> rfl
    rw [hfe, ← List.length_eq_countP_add_countP (fun r : TestResult => r.success)]

/-- C2 (amended): for every sample list with zero successful samples the
performance score is 0, and the reliability score is 0 for an empty list
but 1/5 (the consistency term alone) for a non-empty all-failure list;
both are well defined, never NaN. -/
theorem zero_success_scores (m : MathModel) (st : CompilerState)
    (language test_name : String) (results : List TestResult)
    (hfail : ∀ r ∈ results, r.success = false) :
    (calculate_language_performance m st language test_name results).performance_score = 0 ∧
    (calculate_language_performance m st language test_name results).reliability_score
      = if results = [] then 0 else 1 / 5 := by
  rw [calculate_language_performance]
  split
  · rename_i h
    simp [h]
  · rename_i h
    have hfilter : results.filter (fun r => r.success) = [] := by
      rw [List.filter_eq_nil_iff]
      intro a ha
      simp [hfail a ha]
    have hlen : 0 < results.length := List.length_pos.mpr h
    simp [hfilter, hlen, calculate_performance_score, calculate_reliability_score]
    norm_num

theorem clamp01_nonneg (x : ℚ) : 0 ≤ clamp01 x := le_max_left 0 _

theorem clamp01_le_one (x : ℚ) : clamp01 x ≤ 1 :=
  max_le (by norm_num) (min_le_left 1 x)

/-- C10: the pairwise p-value computation is total and clamped into
[0, 1]; lists with fewer than two elements yield exactly 1; a zero pooled
standard error forces a zero t-statistic and hence p = 1 (the Python
`except` arm is unreachable in exact arithmetic, so no exception can
propagate). -/
theorem t_test_p_value_total (m : MathModel) (sample1 sample2 : List ℚ) :
    (0 ≤ calculate_t_test_p_value m sample1 sample2 ∧
      calculate_t_test_p_value m sample1 sample2 ≤ 1) ∧
    (sample1.length < 2 ∨ sample2.length < 2 →
      calculate_t_test_p_value m sample1 sample2 = 1) ∧
    (m.erf 0 = 0 → pooled_standard_error m sample1 sample2 = 0 →
      calculate_t_test_p_value m sample1 sample2 = 1) := by
  refine ⟨?_, ?_, ?_⟩
  · rw [calculate_t_test_p_value]
    split
    · norm_num
    · exact ⟨clamp01_nonneg _, clamp01_le_one _⟩
  · intro h
    rw [calculate_t_test_p_value, if_pos h]
  · intro herf hse
    rw [calculate_t_test_p_value]
    split
    · rfl
    · have ht : welch_t_statistic m sample1 sample2 = 0 := by
        rw [welch_t_statistic]
        simp [hse]
      rw [ht]
      have hcdf : approximate_t_cdf m 0
          (t_test_df sample1.length sample2.length) = 1 / 2 := by
        rw [approximate_t_cdf]
        split
        · rw [normal_approx_cdf]
          simp [herf]
        · rw [coarse_approx_cdf, clamp01]
          norm_num
      simp only [hcdf, clamp01]
      norm_num

/-- C9: recompiling the same fixed raw results leaves the compiler state
untouched and yields identical per-variant performances (inside
`results`) and identical overall rankings, whatever clock values the two
passes observe. -/
theorem compile_results_pure (m : MathModel) (st : CompilerState)
    (raw_results : List (String × List (String × List TestResult)))
    (benchmark_id : String) (execution_time : ℚ) (clock1 clock2 : ℕ) :
    (compile_results m st raw_results benchmark_id execution_time clock1).2 = st ∧
    ((compile_results m st raw_results benchmark_id execution_time clock1).1.toOption.map
        (fun s => (s.results, s.overall_rankings))) =
      ((compile_results m
          (compile_results m st raw_results benchmark_id execution_time clock1).2
          raw_results benchmark_id execution_time clock2).1.toOption.map
        (fun s => (s.results, s.overall_rankings))) := by
  by_cases h : raw_results = []
  · simp [compile_results, h]
  · simp only [compile_results, if_neg h]
    exact ⟨trivial, rfl⟩

/-- A trivial instantiation of the abstract `math` calls, used to
evaluate the model at concrete inputs. -/
def math_model_zero : MathModel := ⟨fun _ => 0, fun _ => 0⟩

/-- A concrete failed sample. -/
def failing_sample : TestResult :=
  ⟨0, 0, 0, "", "boom", false, "python", "fib", 0⟩

/-- A concrete successful sample with the given duration. -/
def success_sample (t : ℚ) : TestResult :=
  ⟨t, 0, 0, "", "", true, "python", "fib", 0⟩

/-- C1 counterexample: on an empty raw-results mapping `compile_results`
raises `ValueError("No raw results provided")` instead of returning a
zero/empty summary, refuting the claim as stated. -/
theorem compile_results_raises_on_empty :
    (compile_results math_model_zero initial_compiler_state [] "bench" 0 0).1 =
      Except.error "No raw results provided" := rfl

/-- C1 (amended): `compile_results` raises `ValueError` on an empty
raw-results mapping; for every non-empty mapping whose per-test inner
collections are all empty it degrades to zero/empty aggregates: zero
executions, zero languages, empty rankings in every category, and zero
counted executions, without raising. -/
theorem compile_results_degrades_on_empty_inner (m : MathModel)
    (st : CompilerState)
    (raw_results : List (String × List (String × List TestResult)))
    (benchmark_id : String) (execution_time : ℚ) (clock : ℕ)
    (hne : raw_results ≠ []) (hinner : ∀ p ∈ raw_results, p.2 = []) :
    ∃ s, (compile_results m st raw_results benchmark_id execution_time clock).1 =
        Except.ok s ∧
      s.total_tests = raw_results.length ∧
      s.total_executions = 0 ∧
      s.total_languages = 0 ∧
      s.overall_rankings.by_speed = [] ∧
      s.overall_rankings.by_memory = [] ∧
      s.overall_rankings.by_reliability = [] ∧
      s.overall_rankings.by_overall = [] ∧
      s.overall_rankings.category_winners = [] ∧
      s.summary_statistics.total_successful_executions = 0 ∧
      s.summary_statistics.total_failed_executions = 0 := by
  have hempty : ∀ q ∈ List.map
      (fun p => (p.1, analyze_test_results m st p.1 p.2)) raw_results,
      q.2.language_performances = [] := by
    intro q hq
    rcases List.mem_map.mp hq with ⟨p, hp, hpq⟩
    rw [hinner p hp] at hpq
    rw [← hpq]
    simp [analyze_test_results]
  have hall : (List.map (fun p => (p.1, analyze_test_results m st p.1 p.2))
      raw_results).flatMap
        (fun p => p.2.language_performances.map (fun q => q.1)) = [] := by
    rw [List.flatMap_eq_nil_iff]
    intro l hl
    rw [hempty l hl]
    rfl
  have hexec : (List.map (fun p => (List.map (fun q => q.2.length) p.2).sum)
      raw_results).sum = 0 := by
    apply List.sum_eq_zero
    intro x hx
    rcases List.mem_map.mp hx with ⟨p, hp, hpx⟩
    rw [hinner p hp] at hpx
    simpa using hpx.symm
  have hlangs : (get_all_languages raw_results).length = 0 := by
    rw [get_all_languages]
    have h0 : raw_results.flatMap (fun p => p.2.map (fun q => q.1)) = [] := by
      rw [List.flatMap_eq_nil_iff]
      intro p hp
      rw [hinner p hp]
      rfl
    simp [h0]
  have hwinners : (calculate_overall_rankings
      (List.map (fun p => (p.1, analyze_test_results m st p.1 p.2))
        raw_results)).category_winners = [] := by
    rw [calculate_overall_rankings]
    apply List.filterMap_eq_nil_iff.mpr
    intro q hq
    rcases List.mem_map.mp hq with ⟨p, hp, hpq⟩
    rw [hinner p hp] at hpq
    rw [← hpq]
    simp [analyze_test_results, rank_languages_by_performance,
      sort_by_score_desc, List.insertionSort]
  have hranks : ∀ f, create_ranking
      (((List.map (fun p => (p.1, analyze_test_results m st p.1 p.2))
          raw_results).flatMap
        (fun p => p.2.language_performances.map (fun q => q.1))).dedup.map f)
      = [] := by
    intro f
    rw [hall]
    rfl
  rw [compile_results, if_neg hne]
  refine ⟨_, rfl, by simp, hexec, hlangs, ?_, ?_, ?_, ?_, hwinners, ?_, ?_⟩
  · exact hranks _
  · exact hranks _
  · exact hranks _
  · exact hranks _
  · show List.countP _ (raw_results.flatMap (fun p => p.2.flatMap (fun q => q.2))) = 0
    have h0 : raw_results.flatMap (fun p => p.2.flatMap (fun q => q.2)) = [] := by
      rw [List.flatMap_eq_nil_iff]
      intro p hp
      rw [hinner p hp]
      rfl
    rw [h0]
    rfl
  · show List.countP _ (raw_results.flatMap (fun p => p.2.flatMap (fun q => q.2))) = 0
    have h0 : raw_results.flatMap (fun p => p.2.flatMap (fun q => q.2)) = [] := by
      rw [List.flatMap_eq_nil_iff]
      intro p hp
      rw [hinner p hp]
      rfl
    rw [h0]
    rfl

/-- C2 counterexample: a variant with one failed sample (zero successes)
has reliability score 1/5, not 0, refuting the claim that every derived
score is 0. -/
theorem zero_success_reliability_nonzero :
    (calculate_language_performance math_model_zero initial_compiler_state
      "python" "fib" [failing_sample]).reliability_score = 1 / 5 ∧
    ((1 : ℚ) / 5 ≠ 0) := by
  constructor
  · simp [calculate_language_performance, failing_sample,
      calculate_reliability_score]
    norm_num
  · norm_num

theorem string_append_ne_empty (a b : String)
    (h : 0 < a.length + b.length) : a ++ b ≠ "" := by
  intro he
  have hl := congrArg String.length he
  rw [String.length_append] at hl
  have h0 : ("" : String).length = 0 := rfl
  rw [h0] at hl
  omega

/-- C3 counterexample: a process that exits non-zero while writing
nothing to stderr yields a failure sample whose error string is empty,
refuting the claim that every failed path carries a non-empty error. -/
theorem execute_test_error_can_be_empty :
    (python_execute_test 5 "python" "fib" 0
      (ProcOutcome.completed "" "" 1 3)).success = false ∧
    (python_execute_test 5 "python" "fib" 0
      (ProcOutcome.completed "" "" 1 3)).error = "" := ⟨rfl, rfl⟩

/-- C3 (amended): `execute_test` never throws past its boundary (the
model is a total function of the subprocess outcome); success is set
exactly on completed runs with exit code 0; on timeout the sample is a
failure with duration pinned to the configured timeout and a non-empty
error; the compiled runner's pre-check and exception paths produce
failures with non-empty errors; the interpreted runner's exception path
propagates the exception text verbatim, so its error is non-empty
exactly when that text is; on a non-zero exit the error is the captured
stderr verbatim, which may be empty. -/
theorem execute_test_contract (timeout elapsed : ℚ)
    (language test_name exe stdout stderr msg : String) (iteration : ℕ)
    (rc bsz : ℤ) (b : Bool) (outcome : ProcOutcome) :
    ((python_execute_test timeout language test_name iteration
        (ProcOutcome.completed stdout stderr rc elapsed)).success = true ↔ rc = 0) ∧
    (python_execute_test timeout language test_name iteration
        (ProcOutcome.completed stdout stderr rc elapsed)).error = stderr ∧
    (python_execute_test timeout language test_name iteration
        (ProcOutcome.completed stdout stderr rc elapsed)).execution_time = elapsed ∧
    (python_execute_test timeout language test_name iteration
        ProcOutcome.timedOut).success = false ∧
    (python_execute_test timeout language test_name iteration
        ProcOutcome.timedOut).execution_time = timeout ∧
    (python_execute_test timeout language test_name iteration
        ProcOutcome.timedOut).error ≠ "" ∧
    (python_execute_test timeout language test_name iteration
        (ProcOutcome.raised msg)).success = false ∧
    (python_execute_test timeout language test_name iteration
        (ProcOutcome.raised msg)).error = msg ∧
    (msg ≠ "" → (python_execute_test timeout language test_name iteration
        (ProcOutcome.raised msg)).error ≠ "") ∧
    (rust_execute_test timeout language test_name iteration exe false b bsz
        outcome).success = false ∧
    (rust_execute_test timeout language test_name iteration exe false b bsz
        outcome).error ≠ "" ∧
    (rust_execute_test timeout language test_name iteration exe true false bsz
        outcome).success = false ∧
    (rust_execute_test timeout language test_name iteration exe true false bsz
        outcome).error ≠ "" ∧
    ((rust_execute_test timeout language test_name iteration exe true true bsz
        (ProcOutcome.completed stdout stderr rc elapsed)).success = true ↔ rc = 0) ∧
    (rust_execute_test timeout language test_name iteration exe true true bsz
        (ProcOutcome.completed stdout stderr rc elapsed)).error = stderr ∧
    (rust_execute_test timeout language test_name iteration exe true true bsz
        ProcOutcome.timedOut).success = false ∧
    (rust_execute_test timeout language test_name iteration exe true true bsz
        ProcOutcome.timedOut).execution_time = timeout ∧
    (rust_execute_test timeout language test_name iteration exe true true bsz
        ProcOutcome.timedOut).error ≠ "" ∧
    (rust_execute_test timeout language test_name iteration exe true true bsz
        (ProcOutcome.raised msg)).success = false ∧
    (rust_execute_test timeout language test_name iteration exe true true bsz
        (ProcOutcome.raised msg)).error ≠ "" := by
  have hs1 : ("s" : String).length = 1 := rfl
  have htimeout : "Timeout after " ++ toString timeout ++ "s" ≠ "" :=
    string_append_ne_empty _ _ (by omega)
  have hnotfound : "Executable not found: " ++ exe ≠ "" :=
    string_append_ne_empty _ _
      (by have : ("Executable not found: " : String).length = 22 := rfl; omega)
  have hnotexec : "Binary not executable: " ++ exe ≠ "" :=
    string_append_ne_empty _ _
      (by have : ("Binary not executable: " : String).length = 23 := rfl; omega)
  have herr : "Execution error: " ++ msg ≠ "" :=
    string_append_ne_empty _ _
      (by have : ("Execution error: " : String).length = 17 := rfl; omega)
  refine ⟨by simp [python_execute_test], rfl, rfl, rfl, rfl, htimeout, rfl, rfl,
    fun h => h, ?_, ?_, ?_, ?_, by simp [rust_execute_test], ?_, ?_, ?_, ?_,
    ?_, ?_⟩
  all_goals simp [rust_execute_test, htimeout, hnotfound, hnotexec, herr]

/-- The scenario source of the scaffolding test: one recognized import
(`rand`) and one unrecognized import. -/
def rust_scenario_source : String :=
  "use rand::Rng;\nuse some_unknown_crate::Thing;\nfn main() \x7b\x7d\n"

theorem char_list_has_sub_of_occurrence (p l : List Char) (h : p <:+: l) :
    char_list_has_sub l p = true := by
  induction l with
  | nil =>
    rw [List.infix_nil] at h
    simp [h, char_list_has_sub]
  | cons c rest ih =>
    rw [List.infix_cons_iff] at h
    rcases h with h | h
    · have hp := List.isPrefixOf_iff_prefix.mpr h
      rw [char_list_has_sub]
      simp [hp]
    · rw [char_list_has_sub]
      simp [ih h]

theorem str_contains_of_occurrence (s pat : String) (h : pat.data <:+: s.data) :
    str_contains s pat = true :=
  char_list_has_sub_of_occurrence pat.data s.data h

theorem cargo_fold_data (deps : List String) (acc : String) :
    (deps.foldl (fun acc dep => acc ++ dep ++ "\n") acc).data =
      acc.data ++ deps.flatMap (fun d => d.data ++ ['\n']) := by
  induction deps generalizing acc with
  | nil => simp
  | cons d rest ih =>
    rw [List.foldl_cons, ih]
    simp [String.data_append]

theorem dep_infix_cargo_toml (deps : List String) (d : String)
    (hd : d ∈ deps) : d.data <:+: (cargo_toml_content deps).data := by
  rw [cargo_toml_content, String.data_append, cargo_fold_data]
  have hmid : d.data <:+: deps.flatMap (fun x => x.data ++ ['\n']) := by
    induction deps with
    | nil => cases hd
    | cons x rest ih =>
      rcases List.mem_cons.mp hd with h | h
      · subst h
        refine ⟨[], '\n' :: rest.flatMap (fun x => x.data ++ ['\n']), ?_⟩
        simp [List.flatMap_cons]
      · have := ih h
        rcases this with ⟨pre, suf, heq⟩
        refine ⟨x.data ++ ['\n'] ++ pre, suf, ?_⟩
        simp [List.flatMap_cons, ← heq]
  have step1 : d.data <:+: cargo_header.data ++
      deps.flatMap (fun x => x.data ++ ['\n']) := by
    rcases hmid with ⟨pre, suf, heq⟩
    exact ⟨cargo_header.data ++ pre, suf, by simp [← heq]⟩
  rcases step1 with ⟨pre, suf, heq⟩
  exact ⟨pre, suf ++ cargo_profile.data, by simp [← heq]⟩

/-- C8: every inferred dependency is one of the nine recognized
declarations; an unreadable source is never fatal (it yields no
dependencies); each recognized import pattern found in the source puts
its declaration into the generated manifest; every inferred declaration
occurs verbatim in the built `Cargo.toml`; and in the two-import
scenario the manifest declares the recognized `rand` crate and omits the
unrecognized one. -/
theorem dependency_inference_spec :
    (∀ source d, d ∈ analyze_rust_dependencies source →
      d ∈ recognized_rust_deps.map (fun p => p.2)) ∧
    analyze_rust_dependencies none = [] ∧
    (∀ content pattern dep, (pattern, dep) ∈ recognized_rust_deps →
      str_contains content pattern = true →
      dep ∈ analyze_rust_dependencies (some content)) ∧
    (∀ deps d, d ∈ deps → str_contains (cargo_toml_content deps) d = true) ∧
    rand_dep ∈ analyze_rust_dependencies (some rust_scenario_source) ∧
    str_contains
      (cargo_toml_content (analyze_rust_dependencies (some rust_scenario_source)))
      rand_dep = true ∧
    str_contains
      (cargo_toml_content (analyze_rust_dependencies (some rust_scenario_source)))
      "some_unknown_crate" = false := by
  refine ⟨?_, rfl, ?_, ?_, ?_, ?_, ?_⟩
  · intro source d hd
    cases source with
    | none => cases hd
    | some content =>
      rw [analyze_rust_dependencies] at hd
      rcases List.mem_filterMap.mp hd with ⟨p, hp, hpd⟩
      by_cases hc : str_contains content ("use " ++ p.1) = true ∨
          str_contains content p.1 = true
      · refine List.mem_map.mpr ⟨p, hp, ?_⟩
        rcases hc with hc | hc <;> simp [hc] at hpd <;> exact hpd
      · push_neg at hc
        simp [hc.1, hc.2] at hpd
  · intro content pattern dep hmem hcont
    rw [analyze_rust_dependencies]
    exact List.mem_filterMap.mpr ⟨(pattern, dep), hmem, by simp [hcont]⟩
  · intro deps d hd
    exact str_contains_of_occurrence _ _ (dep_infix_cargo_toml deps d hd)
  · decide
  · decide
  · decide

theorem foldl_min_by_spec {α : Type} (key : α → WithTop ℚ) (l : List α)
    (x : α) :
    (l.foldl (fun b a => if key a < key b then a else b) x = x ∨
      l.foldl (fun b a => if key a < key b then a else b) x ∈ l) ∧
    key (l.foldl (fun b a => if key a < key b then a else b) x) ≤ key x ∧
    ∀ a ∈ l, key (l.foldl (fun b a => if key a < key b then a else b) x) ≤ key a := by
  induction l generalizing x with
  | nil => simp
  | cons c rest ih =>
    rw [List.foldl_cons]
    rcases ih (if key c < key x then c else x) with ⟨hmem, hle, hall⟩
    have hly : key (if key c < key x then c else x) ≤ key x := by
      split
      · rename_i h; exact le_of_lt h
      · exact le_rfl
    have hlc : key (if key c < key x then c else x) ≤ key c := by
      split
      · exact le_rfl
      · rename_i h; exact le_of_not_lt h
    refine ⟨?_, le_trans hle hly, ?_⟩
    · rcases hmem with h | h
      · rw [h]
        split
        · exact Or.inr (List.mem_cons_self _ _)
        · exact Or.inl rfl
      · exact Or.inr (List.mem_cons_of_mem _ h)
    · intro a ha
      rcases List.mem_cons.mp ha with h | h
      · rw [h]; exact le_trans hle hlc
      · exact hall a h

theorem py_min_by_spec {α : Type} (key : α → WithTop ℚ) (l : List α)
    (hne : l ≠ []) :
    ∃ b, py_min_by key l = some b ∧ b ∈ l ∧ ∀ a ∈ l, key b ≤ key a := by
  cases l with
  | nil => exact absurd rfl hne
  | cons x rest =>
    rcases foldl_min_by_spec key rest x with ⟨hmem, hle, hall⟩
    refine ⟨_, rfl, ?_, ?_⟩
    · rcases hmem with h | h
      · rw [h]; exact List.mem_cons_self _ _
      · exact List.mem_cons_of_mem _ h
    · intro a ha
      rcases List.mem_cons.mp ha with h | h
      · rw [h]; exact hle
      · exact hall a h

theorem foldl_max_by_spec {α : Type} (key : α → ℚ) (l : List α) (x : α) :
    (l.foldl (fun b a => if key b < key a then a else b) x = x ∨
      l.foldl (fun b a => if key b < key a then a else b) x ∈ l) ∧
    key x ≤ key (l.foldl (fun b a => if key b < key a then a else b) x) ∧
    ∀ a ∈ l, key a ≤ key (l.foldl (fun b a => if key b < key a then a else b) x) := by
  induction l generalizing x with
  | nil => simp
  | cons c rest ih =>
    rw [List.foldl_cons]
    rcases ih (if key x < key c then c else x) with ⟨hmem, hle, hall⟩
    have hly : key x ≤ key (if key x < key c then c else x) := by
      split
      · rename_i h; exact le_of_lt h
      · exact le_rfl
    have hlc : key c ≤ key (if key x < key c then c else x) := by
      split
      · exact le_rfl
      · rename_i h; exact le_of_not_lt h
    refine ⟨?_, le_trans hly hle, ?_⟩
    · rcases hmem with h | h
      · rw [h]
        split
        · exact Or.inr (List.mem_cons_self _ _)
        · exact Or.inl rfl
      · exact Or.inr (List.mem_cons_of_mem _ h)
    · intro a ha
      rcases List.mem_cons.mp ha with h | h
      · rw [h]; exact le_trans hlc hle
      · exact hall a h

theorem py_max_by_spec {α : Type} (key : α → ℚ) (l : List α) (hne : l ≠ []) :
    ∃ b, py_max_by key l = some b ∧ b ∈ l ∧ ∀ a ∈ l, key a ≤ key b := by
  cases l with
  | nil => exact absurd rfl hne
  | cons x rest =>
    rcases foldl_max_by_spec key rest x with ⟨hmem, hle, hall⟩
    refine ⟨_, rfl, ?_, ?_⟩
    · rcases hmem with h | h
      · rw [h]; exact List.mem_cons_self _ _
      · exact List.mem_cons_of_mem _ h
    · intro a ha
      rcases List.mem_cons.mp ha with h | h
      · rw [h]; exact hle
      · exact hall a h

theorem calculate_language_performance_fields (m : MathModel)
    (st : CompilerState) (language test_name : String)
    (results : List TestResult) (hne : results ≠ [])
    (hsucc : results.filter (fun r => r.success) ≠ []) :
    (calculate_language_performance m st language test_name results).avg_time
      = statistics_mean ((results.filter (fun r => r.success)).map
          (fun r => r.execution_time)) ∧
    (calculate_language_performance m st language test_name
        results).successful_iterations
      = (results.filter (fun r => r.success)).length ∧
    (calculate_language_performance m st language test_name
        results).success_rate
      = ((results.filter (fun r => r.success)).length : ℚ) /
          (results.length : ℚ) := by
  have hlen : 0 < results.length := List.length_pos.mpr hne
  rw [calculate_language_performance, if_neg hne]
  simp only [if_pos hsucc, if_pos hlen, ne_eq]
  exact ⟨by trivial, by trivial, by trivial⟩

/-- Variant A's samples in the ranking scenario: three successful 10 ms
iterations. -/
def scenario_results_a : List TestResult :=
  [success_sample (1 / 100), success_sample (1 / 100), success_sample (1 / 100)]

/-- Variant B's samples in the ranking scenario: two successful 5 ms
iterations and one failure. -/
def scenario_results_b : List TestResult :=
  [success_sample (1 / 200), success_sample (1 / 200), failing_sample]

theorem scenario_a_fields (m : MathModel) (st : CompilerState) :
    (calculate_language_performance m st "A" "bench"
        scenario_results_a).avg_time = 1 / 100 ∧
    (calculate_language_performance m st "A" "bench"
        scenario_results_a).successful_iterations = 3 ∧
    (calculate_language_performance m st "A" "bench"
        scenario_results_a).success_rate = 1 := by
  have hf : scenario_results_a.filter (fun r => r.success)
      = scenario_results_a := by
    simp [scenario_results_a, success_sample, List.filter]
  obtain ⟨h1, h2, h3⟩ := calculate_language_performance_fields m st "A"
    "bench" scenario_results_a (by simp [scenario_results_a])
    (by rw [hf]; simp [scenario_results_a])
  rw [hf] at h1 h2 h3
  refine ⟨?_, ?_, ?_⟩
  · rw [h1]
    norm_num [scenario_results_a, success_sample, statistics_mean]
  · rw [h2]
    rfl
  · rw [h3]
    norm_num [scenario_results_a]

theorem scenario_b_fields (m : MathModel) (st : CompilerState) :
    (calculate_language_performance m st "B" "bench"
        scenario_results_b).avg_time = 1 / 200 ∧
    (calculate_language_performance m st "B" "bench"
        scenario_results_b).successful_iterations = 2 ∧
    (calculate_language_performance m st "B" "bench"
        scenario_results_b).success_rate = 2 / 3 := by
  have hf : scenario_results_b.filter (fun r => r.success)
      = [success_sample (1 / 200), success_sample (1 / 200)] := by
    simp [scenario_results_b, success_sample, failing_sample, List.filter]
  obtain ⟨h1, h2, h3⟩ := calculate_language_performance_fields m st "B"
    "bench" scenario_results_b (by simp [scenario_results_b])
    (by rw [hf]; simp)
  rw [hf] at h1 h2 h3
  refine ⟨?_, ?_, ?_⟩
  · rw [h1]
    norm_num [success_sample, statistics_mean]
  · rw [h2]
    rfl
  · rw [h3]
    norm_num [scenario_results_b]

/-- The ranking scenario: variant A with three successful 10 ms samples,
variant B with two successful 5 ms samples and one failure. -/
def scenario_performances (m : MathModel) (st : CompilerState) :
    List (String × LanguagePerformance) :=
  [("A", calculate_language_performance m st "A" "bench" scenario_results_a),
   ("B", calculate_language_performance m st "B" "bench" scenario_results_b)]

/-- C5: the fastest variant has at least one success and the lowest mean
duration among variants with a success; the most memory-efficient
likewise for mean memory; the most reliable has the highest success rate
over all variants including zero-success ones; and in the concrete A/B
scenario A is most reliable while B is fastest. -/
theorem winners_spec (perfs : List (String × LanguagePerformance)) :
    ((∃ p ∈ perfs, 0 < p.2.successful_iterations) →
      ∃ q ∈ perfs, find_fastest_language perfs = q.1 ∧
        0 < q.2.successful_iterations ∧
        ∀ r ∈ perfs, 0 < r.2.successful_iterations →
          q.2.avg_time ≤ r.2.avg_time) ∧
    ((∃ p ∈ perfs, 0 < p.2.successful_iterations) →
      ∃ q ∈ perfs, find_most_memory_efficient perfs = q.1 ∧
        0 < q.2.successful_iterations ∧
        ∀ r ∈ perfs, 0 < r.2.successful_iterations →
          q.2.avg_memory ≤ r.2.avg_memory) ∧
    (perfs ≠ [] →
      ∃ q ∈ perfs, find_most_reliable perfs = q.1 ∧
        ∀ r ∈ perfs, r.2.success_rate ≤ q.2.success_rate) ∧
    (∀ m st, find_fastest_language (scenario_performances m st) = "B") ∧
    (∀ m st, find_most_reliable (scenario_performances m st) = "A") := by
  refine ⟨?_, ?_, ?_, ?_, ?_⟩
  · rintro ⟨p, hp, hpsucc⟩
    have hne : perfs ≠ [] := by
      intro h; rw [h] at hp; cases hp
    obtain ⟨b, hfind, hbmem, hball⟩ :=
      py_min_by_spec (fun q => fastest_key q.2) perfs hne
    have hlt : fastest_key b.2 < ⊤ := by
      refine lt_of_le_of_lt (hball p hp) ?_
      rw [fastest_key, if_pos hpsucc]
      exact WithTop.coe_lt_top _
    have hbsucc : 0 < b.2.successful_iterations := by
      by_contra h
      rw [fastest_key, if_neg h] at hlt
      exact lt_irrefl _ hlt
    refine ⟨b, hbmem, ?_, hbsucc, ?_⟩
    · rw [find_fastest_language, hfind]
      simp [hbsucc]
    · intro r hr hrsucc
      have h := hball r hr
      rw [fastest_key, if_pos hbsucc, fastest_key, if_pos hrsucc] at h
      exact_mod_cast h
  · rintro ⟨p, hp, hpsucc⟩
    have hne : perfs ≠ [] := by
      intro h; rw [h] at hp; cases hp
    obtain ⟨b, hfind, hbmem, hball⟩ :=
      py_min_by_spec (fun q => memory_key q.2) perfs hne
    have hlt : memory_key b.2 < ⊤ := by
      refine lt_of_le_of_lt (hball p hp) ?_
      rw [memory_key, if_pos hpsucc]
      exact WithTop.coe_lt_top _
    have hbsucc : 0 < b.2.successful_iterations := by
      by_contra h
      rw [memory_key, if_neg h] at hlt
      exact lt_irrefl _ hlt
    refine ⟨b, hbmem, ?_, hbsucc, ?_⟩
    · rw [find_most_memory_efficient, hfind]
      simp [hbsucc]
    · intro r hr hrsucc
      have h := hball r hr
      rw [memory_key, if_pos hbsucc, memory_key, if_pos hrsucc] at h
      exact_mod_cast h
  · intro hne
    obtain ⟨b, hfind, hbmem, hball⟩ :=
      py_max_by_spec (fun q => q.2.success_rate) perfs hne
    exact ⟨b, hbmem, by rw [find_most_reliable, hfind], hball⟩
  · intro m st
    obtain ⟨hA1, hA2, hA3⟩ := scenario_a_fields m st
    obtain ⟨hB1, hB2, hB3⟩ := scenario_b_fields m st
    have hKA : fastest_key (calculate_language_performance m st "A" "bench"
        scenario_results_a) = ((1 / 100 : ℚ) : WithTop ℚ) := by
      rw [fastest_key, if_pos (by rw [hA2]; norm_num), hA1]
    have hKB : fastest_key (calculate_language_performance m st "B" "bench"
        scenario_results_b) = ((1 / 200 : ℚ) : WithTop ℚ) := by
      rw [fastest_key, if_pos (by rw [hB2]; norm_num), hB1]
    have hcond : fastest_key (calculate_language_performance m st "B" "bench"
          scenario_results_b) <
        fastest_key (calculate_language_performance m st "A" "bench"
          scenario_results_a) := by
      rw [hKA, hKB]
      exact WithTop.coe_lt_coe.mpr (by norm_num)
    rw [scenario_performances, find_fastest_language]
    simp only [py_min_by, List.foldl_cons, List.foldl_nil, if_pos hcond]
    rw [if_pos (by rw [hB2]; norm_num)]
  · intro m st
    obtain ⟨hA1, hA2, hA3⟩ := scenario_a_fields m st
    obtain ⟨hB1, hB2, hB3⟩ := scenario_b_fields m st
    have hcond : ¬((calculate_language_performance m st "A" "bench"
          scenario_results_a).success_rate <
        (calculate_language_performance m st "B" "bench"
          scenario_results_b).success_rate) := by
      rw [hA3, hB3]
      norm_num
    rw [scenario_performances, find_most_reliable]
    simp only [py_max_by, List.foldl_cons, List.foldl_nil, if_neg hcond]

/-- An instantiation of the abstract `math` calls on which the two cdf
branches visibly differ. -/
def math_model_coarse : MathModel := ⟨fun _ => 0, fun _ => 1⟩

/-- C4 counterexample: with two samples of exactly 30 points each the
degrees of freedom are min(30, 30) − 1 = 29, so the code takes the
coarse branch even though the smaller sample has at least 30 points,
refuting the claimed ≥ 30 threshold for the normal approximation. -/
theorem t_cdf_branch_at_thirty :
    approximate_t_cdf math_model_coarse 2 (t_test_df 30 30) ≠
      normal_approx_cdf math_model_coarse 2 ∧
    (30 : ℕ) ≤ min 30 30 := by
  constructor
  · rw [approximate_t_cdf, t_test_df]
    norm_num [coarse_approx_cdf, normal_approx_cdf, clamp01, math_model_coarse]
  · norm_num

/-- C4 (amended): every ordered pair of distinct variants gets a matrix
entry: the approximate two-sided p-value from the Welch-style
t-statistic when both have at least two successful durations, else 1;
the p-value is the clamped tail probability of the approximate t-cdf at
df = min(n1, n2) − 1; the normal approximation is used exactly when the
smaller sample has at least 31 points (df ≥ 30), the coarse closed form
otherwise. -/
theorem significance_matrix_spec (m : MathModel)
    (L : List (String × List TestResult)) :
    (∀ i j, i < L.length → j < L.length → i ≠ j →
      ∃ row, (calculate_statistical_significance m L).getD i ("", [])
          = ((L.getD i ("", [])).1, row) ∧
        ((L.getD j ("", [])).1,
          significance_entry m (L.getD i ("", [])).2 (L.getD j ("", [])).2)
          ∈ row) ∧
    (∀ results1 results2, ¬(1 < (successful_times results1).length ∧
        1 < (successful_times results2).length) →
      significance_entry m results1 results2 = 1) ∧
    (∀ sample1 sample2 : List ℚ, 2 ≤ sample1.length → 2 ≤ sample2.length →
      calculate_t_test_p_value m sample1 sample2 =
        clamp01 (2 * (1 - approximate_t_cdf m
          (welch_t_statistic m sample1 sample2)
          (t_test_df sample1.length sample2.length)))) ∧
    (∀ (t : ℚ) (n1 n2 : ℕ), 2 ≤ n1 → 2 ≤ n2 →
      (31 ≤ min n1 n2 →
        approximate_t_cdf m t (t_test_df n1 n2) = normal_approx_cdf m t) ∧
      (min n1 n2 ≤ 30 →
        approximate_t_cdf m t (t_test_df n1 n2) =
          coarse_approx_cdf m t (t_test_df n1 n2))) := by
  refine ⟨?_, ?_, ?_, ?_⟩
  · intro i j hi hj hij
    have hlen : (calculate_statistical_significance m L).length = L.length := by
      rw [calculate_statistical_significance]
      rw [List.length_map, List.enum_length]
    have hi2 : i < (calculate_statistical_significance m L).length := by
      rw [hlen]; exact hi
    have hie : i < L.enum.length := by rw [List.enum_length]; exact hi
    have hje : j < L.enum.length := by rw [List.enum_length]; exact hj
    rw [List.getD_eq_getElem _ _ hi2, List.getD_eq_getElem _ _ hi,
      List.getD_eq_getElem _ _ hj]
    refine ⟨L.enum.filterMap (fun jq =>
        if i = jq.1 then none
        else some (jq.2.1, significance_entry m L[i].2 jq.2.2)), ?_, ?_⟩
    · show (List.map _ L.enum)[i] = _
      rw [List.getElem_map, List.getElem_enum]
    · refine List.mem_filterMap.mpr ⟨(j, L[j]), ?_, ?_⟩
      · have : L.enum[j] = (j, L[j]) := List.getElem_enum _ _ _
        rw [← this]
        exact List.getElem_mem hje
      · simp [hij]
  · intro results1 results2 h
    rw [significance_entry, if_neg h]
  · intro sample1 sample2 h1 h2
    rw [calculate_t_test_p_value, if_neg (by omega)]
  · intro t n1 n2 h1 h2
    constructor
    · intro h
      rw [approximate_t_cdf, if_pos ?_]
      rw [t_test_df]
      have : (31 : ℤ) ≤ (min n1 n2 : ℕ) := by exact_mod_cast h
      push_cast at this ⊢
      omega
    · intro h
      rw [approximate_t_cdf, if_neg ?_]
      rw [t_test_df]
      have : ((min n1 n2 : ℕ) : ℤ) ≤ 30 := by exact_mod_cast h
      push_cast at this ⊢
      omega

/-- Witness for C2 at a concrete one-failure sample list. -/
theorem zero_success_scores_witness :
    (calculate_language_performance math_model_zero initial_compiler_state
      "python" "fib" [failing_sample]).performance_score = 0 ∧
    (calculate_language_performance math_model_zero initial_compiler_state
      "python" "fib" [failing_sample]).reliability_score
      = if [failing_sample] = ([] : List TestResult) then 0 else 1 / 5 :=
  zero_success_scores math_model_zero initial_compiler_state "python" "fib"
    [failing_sample]
    (by intro r hr; rw [List.mem_singleton.mp hr]; rfl)

/-- Witness for C6 at a concrete list of successful samples. -/
theorem duration_statistics_ordered_witness :
    (calculate_language_performance math_model_zero initial_compiler_state
        "A" "bench" scenario_results_a).min_time ≤
      (calculate_language_performance math_model_zero initial_compiler_state
        "A" "bench" scenario_results_a).median_time ∧
    (calculate_language_performance math_model_zero initial_compiler_state
        "A" "bench" scenario_results_a).median_time ≤
      (calculate_language_performance math_model_zero initial_compiler_state
        "A" "bench" scenario_results_a).max_time ∧
    (calculate_language_performance math_model_zero initial_compiler_state
        "A" "bench" scenario_results_a).min_time ≤
      (calculate_language_performance math_model_zero initial_compiler_state
        "A" "bench" scenario_results_a).avg_time ∧
    (calculate_language_performance math_model_zero initial_compiler_state
        "A" "bench" scenario_results_a).avg_time ≤
      (calculate_language_performance math_model_zero initial_compiler_state
        "A" "bench" scenario_results_a).max_time :=
  duration_statistics_ordered math_model_zero initial_compiler_state "A"
    "bench" scenario_results_a
    (by simp [scenario_results_a, success_sample, List.filter])

/-- Witness for C1 at the concrete raw results with one test and no
samples. -/
theorem compile_results_degrades_on_empty_inner_witness :
    ∃ s, (compile_results math_model_zero initial_compiler_state
        [("t1", [])] "bench" 0 0).1 = Except.ok s ∧
      s.total_tests = ([("t1", ([] : List (String × List TestResult)))]).length ∧
      s.total_executions = 0 ∧
      s.total_languages = 0 ∧
      s.overall_rankings.by_speed = [] ∧
      s.overall_rankings.by_memory = [] ∧
      s.overall_rankings.by_reliability = [] ∧
      s.overall_rankings.by_overall = [] ∧
      s.overall_rankings.category_winners = [] ∧
      s.summary_statistics.total_successful_executions = 0 ∧
      s.summary_statistics.total_failed_executions = 0 :=
  compile_results_degrades_on_empty_inner math_model_zero
    initial_compiler_state [("t1", [])] "bench" 0 0 (by simp)
    (by intro p hp; rw [List.mem_singleton.mp hp])

/-- Witness for C10 at two concrete two-point samples with zero pooled
standard error. -/
theorem t_test_p_value_total_witness :
    (0 ≤ calculate_t_test_p_value math_model_zero [0, 0] [1, 1] ∧
      calculate_t_test_p_value math_model_zero [0, 0] [1, 1] ≤ 1) ∧
    calculate_t_test_p_value math_model_zero [0, 0] [1, 1] = 1 :=
  ⟨(t_test_p_value_total math_model_zero [0, 0] [1, 1]).1,
    (t_test_p_value_total math_model_zero [0, 0] [1, 1]).2.2 rfl rfl⟩

/-- Two variants with two successful samples each, for instantiating the
significance-matrix specification. -/
def significance_example : List (String × List TestResult) :=
  [("A", [success_sample 1, success_sample 2]),
   ("B", [success_sample 1, success_sample 3])]

/-- Witness for C4 at a concrete two-variant collection. -/
theorem significance_matrix_spec_witness :
    ∃ row, (calculate_statistical_significance math_model_zero
        significance_example).getD 0 ("", [])
        = ((significance_example.getD 0 ("", [])).1, row) ∧
      ((significance_example.getD 1 ("", [])).1,
        significance_entry math_model_zero
          (significance_example.getD 0 ("", [])).2
          (significance_example.getD 1 ("", [])).2) ∈ row :=
  (significance_matrix_spec math_model_zero significance_example).1 0 1
    (by norm_num [significance_example]) (by norm_num [significance_example])
    (by norm_num)

/-- Witness for C5 at the concrete ranking scenario. -/
theorem winners_spec_witness :
    ∃ q ∈ scenario_performances math_model_zero initial_compiler_state,
      find_fastest_language
          (scenario_performances math_model_zero initial_compiler_state)
        = q.1 ∧
      0 < q.2.successful_iterations ∧
      ∀ r ∈ scenario_performances math_model_zero initial_compiler_state,
        0 < r.2.successful_iterations → q.2.avg_time ≤ r.2.avg_time :=
  (winners_spec (scenario_performances math_model_zero
      initial_compiler_state)).1
    ⟨("A", calculate_language_performance math_model_zero
        initial_compiler_state "A" "bench" scenario_results_a),
      by simp [scenario_performances],
      by rw [(scenario_a_fields math_model_zero initial_compiler_state).2.1]
         norm_num⟩

/-- Witness for C8 at the concrete two-import scenario source. -/
theorem dependency_inference_spec_witness :
    rand_dep ∈ analyze_rust_dependencies (some rust_scenario_source) :=
  dependency_inference_spec.2.2.1 rust_scenario_source "rand::" rand_dep
    (by simp [recognized_rust_deps]) (by decide)

/-- Witness for C3 at a concrete timeout outcome. -/
theorem execute_test_contract_witness :
    (python_execute_test 5 "python" "fib" 0
        ProcOutcome.timedOut).success = false ∧
    (python_execute_test 5 "python" "fib" 0
        ProcOutcome.timedOut).execution_time = 5 ∧
    (python_execute_test 5 "python" "fib" 0
        ProcOutcome.timedOut).error ≠ "" :=
  ⟨(execute_test_contract 5 3 "python" "fib" "exe" "out" "err" "boom" 0 1 7
      false ProcOutcome.timedOut).2.2.2.1,
    (execute_test_contract 5 3 "python" "fib" "exe" "out" "err" "boom" 0 1 7
      false ProcOutcome.timedOut).2.2.2.2.1,
    (execute_test_contract 5 3 "python" "fib" "exe" "out" "err" "boom" 0 1 7
      false ProcOutcome.timedOut).2.2.2.2.2.1⟩
